import Mathlib

/-!
Shallow embedding of the chapa-cli core: the stats aggregation engine
(`computePrWeight`, `buildStatsFromRaw` from `src/shared.ts`), the GraphQL
fetch wrapper (`fetchEmuStats` from `src/fetch-emu.ts`) and the device
authorization polling loop (`login` from `src/login.ts`).

Numbers: all counts in the source are non-negative integers, embedded as `ℕ`.
The PR weight uses `Math.log`, embedded over `ℝ` with `Real.log`; the
repository concentration ratio is an exact division of naturals, embedded
over `ℚ`.
-/

namespace Chapa

/-- Cap for aggregated PR weight (constant `PR_WEIGHT_AGG_CAP` in shared.ts). -/
def PR_WEIGHT_AGG_CAP : ℕ := 120

/-- Daily activity count for the heatmap (interface `HeatmapDay`). -/
structure HeatmapDay where
  date : String
  count : ℕ
deriving DecidableEq, Repr

/-- One day inside a calendar week (field `contributionDays` element). -/
structure ContributionDay where
  date : String
  contributionCount : ℕ
deriving DecidableEq, Repr

/-- One calendar week (element of `contributionCalendar.weeks`). -/
structure CalendarWeek where
  contributionDays : List ContributionDay
deriving DecidableEq, Repr

/-- The contribution calendar part of the raw payload. -/
structure ContributionCalendar where
  totalContributions : ℕ
  weeks : List CalendarWeek
deriving DecidableEq, Repr

/-- One pull request node of the raw payload. -/
structure PRNode where
  additions : ℕ
  deletions : ℕ
  changedFiles : ℕ
  merged : Bool
deriving DecidableEq, Repr

/-- The `pullRequests` part of the raw payload. -/
structure PullRequests where
  totalCount : ℕ
  nodes : List PRNode
deriving DecidableEq, Repr

/-- One repository node. `defaultBranchRef` holds
`defaultBranchRef.target.history.totalCount` when the branch ref is present,
and is `none` when the GraphQL field is null. -/
structure RepoNode where
  nameWithOwner : String
  defaultBranchRef : Option ℕ
deriving DecidableEq, Repr

/-- The `repositories` part of the raw payload. -/
structure Repositories where
  totalCount : ℕ
  nodes : List RepoNode
deriving DecidableEq, Repr

/-- One owned-repo node (`ownedRepoStars.nodes` element); `watchersTotal` is
`watchers.totalCount`. -/
structure OwnedRepoNode where
  stargazerCount : ℕ
  forkCount : ℕ
  watchersTotal : ℕ
deriving DecidableEq, Repr

/-- Raw data shape returned by the GitHub GraphQL contribution query
(interface `RawContributionData` in shared.ts); `reviewsTotal` and
`issuesTotal` are `reviews.totalCount` and `issues.totalCount`. -/
structure RawContributionData where
  login : String
  name : Option String
  avatarUrl : String
  contributionCalendar : ContributionCalendar
  pullRequests : PullRequests
  reviewsTotal : ℕ
  issuesTotal : ℕ
  repositories : Repositories
  ownedRepoStars : List OwnedRepoNode
deriving DecidableEq, Repr

/-- The intermediate `{name, commits}` record built inside `buildStatsFromRaw`
step 7. -/
structure RepoCommit where
  name : String
  commits : ℕ
deriving DecidableEq, Repr

/-- Aggregated GitHub stats over the last 365 days (interface `StatsData`).
Fields unused by this CLI (`microCommitRatio` and the like, all optional and
never set by `buildStatsFromRaw`) are omitted. -/
structure StatsData where
  handle : String
  displayName : Option String
  avatarUrl : String
  commitsTotal : ℕ
  activeDays : ℕ
  prsMergedCount : ℕ
  prsMergedWeight : ℝ
  reviewsSubmittedCount : ℕ
  issuesClosedCount : ℕ
  linesAdded : ℕ
  linesDeleted : ℕ
  reposContributed : ℕ
  topRepoShare : ℚ
  maxCommitsIn10Min : ℕ
  totalStars : ℕ
  totalForks : ℕ
  totalWatchers : ℕ
  heatmapData : List HeatmapDay
  fetchedAt : String

/-- Weight of a single PR based on size and complexity
(`computePrWeight` in shared.ts):
`min(0.5 + 0.25*log(1 + changedFiles) + 0.25*log(1 + additions + deletions), 3.0)`. -/
noncomputable def computePrWeight (pr : PRNode) : ℝ :=
  min
    (0.5 + 0.25 * Real.log (1 + (pr.changedFiles : ℝ))
         + 0.25 * Real.log (1 + (pr.additions : ℝ) + (pr.deletions : ℝ)))
    3

/-- Transform raw contribution data into a `StatsData` record
(`buildStatsFromRaw` in shared.ts). The wall-clock timestamp
`new Date().toISOString()` is the one non-deterministic input and is passed
as the explicit argument `now`. The nested `for`/`push` loop of step 1 is
rendered as `flatMap`/`map`; the `reduce((s, x) => s + f x, 0)` folds are
rendered as `foldl`. `Math.max(...xs)` in step 8 is rendered as
`foldl max 0`, which agrees with the source because that branch is guarded
by `totalRepoCommits > 0`, so the list is non-empty there; step 9 spells
`Math.max(...xs, 0)` with the explicit extra `0` argument. -/
noncomputable def buildStatsFromRaw (raw : RawContributionData) (now : String) :
    StatsData :=
  let heatmapData : List HeatmapDay :=
    raw.contributionCalendar.weeks.flatMap fun week =>
      week.contributionDays.map fun day =>
        { date := day.date, count := day.contributionCount }
  let activeDays := (heatmapData.filter fun d => decide (d.count > 0)).length
  let commitsTotal := raw.contributionCalendar.totalContributions
  let mergedPRs := raw.pullRequests.nodes.filter fun pr => pr.merged
  let prsMergedCount := mergedPRs.length
  let prsMergedWeight : ℝ :=
    min (mergedPRs.foldl (fun sum pr => sum + computePrWeight pr) 0)
      (PR_WEIGHT_AGG_CAP : ℝ)
  let linesAdded := mergedPRs.foldl (fun sum pr => sum + pr.additions) 0
  let linesDeleted := mergedPRs.foldl (fun sum pr => sum + pr.deletions) 0
  let reviewsSubmittedCount := raw.reviewsTotal
  let issuesClosedCount := raw.issuesTotal
  let repoCommits : List RepoCommit :=
    (raw.repositories.nodes.map fun r =>
        { name := r.nameWithOwner, commits := r.defaultBranchRef.getD 0 }).filter
      fun r => decide (r.commits > 0)
  let reposContributed := repoCommits.length
  let totalRepoCommits : ℕ := repoCommits.foldl (fun s r => s + r.commits) 0
  let maxRepoCommits : ℕ := (repoCommits.map (fun r => r.commits)).foldl max 0
  let topRepoShare : ℚ :=
    if totalRepoCommits > 0 then (maxRepoCommits : ℚ) / (totalRepoCommits : ℚ)
    else 0
  let maxDailyCount : ℕ :=
    max ((heatmapData.map (fun d => d.count)).foldl max 0) 0
  let maxCommitsIn10Min := if maxDailyCount ≥ 30 then maxDailyCount else 0
  let totalStars := raw.ownedRepoStars.foldl (fun sum r => sum + r.stargazerCount) 0
  let totalForks := raw.ownedRepoStars.foldl (fun sum r => sum + r.forkCount) 0
  let totalWatchers := raw.ownedRepoStars.foldl (fun sum r => sum + r.watchersTotal) 0
  { handle := raw.login
    displayName := raw.name
    avatarUrl := raw.avatarUrl
    commitsTotal := commitsTotal
    activeDays := activeDays
    prsMergedCount := prsMergedCount
    prsMergedWeight := prsMergedWeight
    reviewsSubmittedCount := reviewsSubmittedCount
    issuesClosedCount := issuesClosedCount
    linesAdded := linesAdded
    linesDeleted := linesDeleted
    reposContributed := reposContributed
    topRepoShare := topRepoShare
    maxCommitsIn10Min := maxCommitsIn10Min
    totalStars := totalStars
    totalForks := totalForks
    totalWatchers := totalWatchers
    heatmapData := heatmapData
    fetchedAt := now }

/-! ## Device authorization polling loop (`login` in src/login.ts) -/

/-- Maximum number of poll attempts (`MAX_POLL_ATTEMPTS` in login.ts):
5 minutes at 2 s intervals. -/
def MAX_POLL_ATTEMPTS : ℕ := 150

/-- Poll interval in milliseconds (`POLL_INTERVAL_MS` in login.ts). The model
abstracts from real time; the constant is recorded for reference. -/
def POLL_INTERVAL_MS : ℕ := 2000

/-- One error object of a JavaScript `Error` cause chain: its `.message` and
optional `.code`. A thrown error is embedded as the list of chain entries,
outermost first; walking `.cause` moves down the list. -/
structure ErrEntry where
  message : String
  code : Option String
deriving DecidableEq, Repr

/-- JavaScript truthiness of an optional string field: present and non-empty. -/
def optTruthy : Option String → Bool
  | none => false
  | some s => !s.isEmpty

/-- The deepest `.message` of a cause chain (`getRootErrorMessage` in
login.ts); the empty string when the chain is empty. -/
def getRootErrorMessage : List ErrEntry → String
  | [] => ""
  | [e] => e.message
  | _ :: rest => getRootErrorMessage rest

/-- All messages and truthy codes collected from a cause chain, in order
(the `parts` array of `getFullErrorChain` in login.ts). -/
def chainParts : List ErrEntry → List String
  | [] => []
  | e :: rest =>
      e.message ::
        (if optTruthy e.code then e.code.getD "" :: chainParts rest
         else chainParts rest)

/-- Messages and codes of the cause chain joined with a separator
(`getFullErrorChain` in login.ts). -/
def getFullErrorChain (err : List ErrEntry) : String :=
  String.intercalate " | " (chainParts err)

/-- Known TLS/certificate failure signatures (`TLS_ERROR_PATTERNS` in
login.ts): Node.js error codes and human-readable messages. -/
def TLS_ERROR_PATTERNS : List String :=
  ["UNABLE_TO_VERIFY_LEAF_SIGNATURE",
   "CERT_HAS_EXPIRED",
   "DEPTH_ZERO_SELF_SIGNED_CERT",
   "SELF_SIGNED_CERT_IN_CHAIN",
   "ERR_TLS_CERT_ALTNAME_INVALID",
   "CERTIFICATE_VERIFY_FAILED",
   "self-signed certificate",
   "unable to verify",
   "certificate has expired"]

/-- Substring test, embedding JavaScript `String.prototype.includes`. -/
def strContainsSub (s pat : String) : Bool :=
  decide (pat.toList <:+: s.toList)

/-- Whether a message matches a known TLS failure pattern (`isTlsError` in
login.ts). -/
def isTlsError (message : String) : Bool :=
  TLS_ERROR_PATTERNS.any fun p => strContainsSub message p

/-- Outcome of one poll request, as seen by the `try` block of the loop in
`login`: a thrown transport error (its cause chain), a non-2xx HTTP response
(`res.ok` false, carrying the status code), or a parsed JSON body with a
`status` string and optional `token` and `handle` fields. -/
inductive PollOutcome where
  | exn (err : List ErrEntry)
  | httpError (status : ℕ)
  | json (status : String) (token : Option String) (handle : Option String)
deriving DecidableEq, Repr

/-- What one loop iteration of `login` decides after the poll:
return successfully with the credential (`saveConfig` then `return`),
exit fatally on an expired session, or fall through to the next iteration. -/
inductive StepResult where
  | success (token : String) (handle : String)
  | expired
  | keepPolling
deriving DecidableEq, Repr

/-- One iteration of the poll loop of `login`, after the transport outcome is
known: a thrown error and a non-ok response both `continue`; a JSON body with
`status === "approved"` and truthy `token` and `handle` returns the
credential; otherwise `status === "expired"` is fatal; every other body
(pending, malformed approved, unrecognized status) falls through to the next
iteration. -/
def pollStep : PollOutcome → StepResult
  | .exn _ => .keepPolling
  | .httpError _ => .keepPolling
  | .json status token handle =>
      if status = "approved" ∧ optTruthy token ∧ optTruthy handle then
        .success (token.getD "") (handle.getD "")
      else if status = "expired" then .expired
      else .keepPolling

/-- The record passed to `saveConfig` on the approved path of `login`. -/
structure SavedConfig where
  token : String
  handle : String
  server : String
deriving DecidableEq, Repr

/-- Terminal outcome of a `login` run: successful return, `process.exit(1)`
after an expired session, or `process.exit(1)` after the attempt ceiling. -/
inductive LoginResult where
  | success (token : String) (handle : String)
  | expired
  | timeout
deriving DecidableEq, Repr

/-- Observable result of a `login` run: the terminal outcome, the number of
poll requests issued, and the sequence of `saveConfig` invocations. -/
structure LoginRun where
  result : LoginResult
  polls : ℕ
  saved : List SavedConfig
deriving DecidableEq, Repr

/-- The poll loop of `login` from attempt index `i` with `fuel` remaining
iterations (initially `MAX_POLL_ATTEMPTS`); `outcomes j` is the transport
outcome of the poll request issued on attempt `j`. The real loop sleeps
`POLL_INTERVAL_MS` before each attempt and prints progress dots; both are
cosmetic and not modelled. -/
def loginFrom (baseUrl : String) (outcomes : ℕ → PollOutcome) :
    ℕ → ℕ → LoginRun
  | _, 0 => { result := .timeout, polls := 0, saved := [] }
  | i, fuel + 1 =>
      match pollStep (outcomes i) with
      | .success t h =>
          { result := .success t h, polls := 1
            saved := [{ token := t, handle := h, server := baseUrl }] }
      | .expired => { result := .expired, polls := 1, saved := [] }
      | .keepPolling =>
          let r := loginFrom baseUrl outcomes (i + 1) fuel
          { result := r.result, polls := r.polls + 1, saved := r.saved }

/-- A whole `login` run over a given stream of poll outcomes. -/
def login (baseUrl : String) (outcomes : ℕ → PollOutcome) : LoginRun :=
  loginFrom baseUrl outcomes 0 MAX_POLL_ATTEMPTS

/-- A diagnostic surfaced by the `catch` branch of the poll loop:
the verbose-only per-poll network line
(`[poll N] network error: <root message>`), or the TLS hint block
(`TLS certificate error: <root message>` + `try: chapa login --insecure`). -/
inductive Diag where
  | genericNetwork (attempt : ℕ) (rootMsg : String)
  | tlsHint (rootMsg : String)
deriving DecidableEq, Repr

/-- Diagnostics printed by the `catch (err)` branch of the poll loop of
`login` on attempt index `i` (0-based; the printed attempt number is
`i + 1`): the generic network line exactly when `verbose` is set, and the
TLS hint exactly when `insecure` is not set and the collected cause chain
matches a TLS pattern. The branch then continues the loop. -/
def exnDiagnostics (verbose insecure : Bool) (i : ℕ) (err : List ErrEntry) :
    List Diag :=
  (if verbose then [Diag.genericNetwork (i + 1) (getRootErrorMessage err)]
   else []) ++
  (if !insecure && isTlsError (getFullErrorChain err) then
    [Diag.tlsHint (getRootErrorMessage err)]
   else [])

/-! ## GraphQL fetch wrapper (`fetchEmuStats` in src/fetch-emu.ts) -/

/-- One element of `pullRequestContributions.nodes` in the GraphQL response:
a wrapper whose `pullRequest` field may be null. -/
structure GqlPRWrap where
  pullRequest : Option PRNode
deriving DecidableEq, Repr

/-- The `pullRequestContributions` part of the GraphQL response; the node
list may contain null entries. -/
structure GqlPullRequestContributions where
  totalCount : ℕ
  nodes : List (Option GqlPRWrap)
deriving DecidableEq, Repr

/-- The `contributionsCollection` part of the GraphQL response;
`reviewsTotal` and `issuesTotal` are the `totalCount` fields of
`pullRequestReviewContributions` and `issueContributions`. -/
structure GqlContributionsCollection where
  contributionCalendar : ContributionCalendar
  pullRequestContributions : GqlPullRequestContributions
  reviewsTotal : ℕ
  issuesTotal : ℕ
deriving DecidableEq, Repr

/-- The `user` object of the GraphQL response; `ownedRepos` is optional and
its node list may contain null entries. -/
structure GqlUser where
  login : String
  name : Option String
  avatarUrl : String
  contributionsCollection : GqlContributionsCollection
  repositories : Repositories
  ownedRepos : Option (List (Option OwnedRepoNode))
deriving DecidableEq, Repr

/-- The `data` object of the GraphQL response (`user` may be null). -/
structure GqlData where
  user : Option GqlUser
deriving DecidableEq, Repr

/-- Full shape of the GraphQL response body (interface `GraphQLResponse` in
fetch-emu.ts); errors are kept as their message strings. -/
structure GraphQLResponse where
  data : Option GqlData
  errors : Option (List String)
deriving DecidableEq, Repr

/-- Extract a useful error message from a thrown error
(`extractErrorDetail` in fetch-emu.ts): the outermost message followed by
every cause message that is non-empty and differs from the outermost one. -/
def extractErrorDetail : List ErrEntry → String
  | [] => ""
  | e :: rest =>
      String.intercalate " → "
        (e.message ::
          ((rest.filter fun c => !c.message.isEmpty && c.message != e.message).map
            fun c => c.message))

/-- A log line emitted by `fetchEmuStats`: the HTTP-error line, the
GraphQL-errors line, or the catch-branch fetch-error line. -/
inductive FetchLog where
  | httpError (status : ℕ)
  | gqlErrors (errors : List String)
  | fetchError (detail : String)
deriving DecidableEq, Repr

/-- Transport outcome of the single `fetch` call of `fetchEmuStats`: a
thrown error (anywhere in the `try` block, including body parsing), or a
response with its `ok` flag, status code and parsed JSON body. -/
inductive FetchOutcome where
  | exn (err : List ErrEntry)
  | resp (ok : Bool) (status : ℕ) (json : GraphQLResponse)
deriving DecidableEq, Repr

/-- Normalization of a present GraphQL `user` object into the
`RawContributionData` shape (lines building `raw` in `fetchEmuStats`):
null PR wrappers and null `pullRequest` fields are filtered out and
unwrapped; a missing `ownedRepos` degrades to the empty list and its null
nodes are filtered out. -/
def normalizeRaw (user : GqlUser) : RawContributionData :=
  let cc := user.contributionsCollection
  { login := user.login
    name := user.name
    avatarUrl := user.avatarUrl
    contributionCalendar := cc.contributionCalendar
    pullRequests :=
      { totalCount := cc.pullRequestContributions.totalCount
        nodes :=
          cc.pullRequestContributions.nodes.filterMap fun n =>
            n.bind fun w => w.pullRequest }
    reviewsTotal := cc.reviewsTotal
    issuesTotal := cc.issuesTotal
    repositories := user.repositories
    ownedRepoStars := (user.ownedRepos.getD []).filterMap fun n => n }

/-- The response-handling of `fetchEmuStats` in fetch-emu.ts, given the
transport outcome of its single GraphQL request (`now` is the wall-clock
timestamp threaded into the aggregator). Returns the `StatsData | null`
result together with the emitted log lines: a thrown error and a non-ok
response return null; GraphQL errors are only logged; a missing
`data.user` returns null; otherwise the aggregator runs on the normalized
payload. -/
noncomputable def fetchEmuStats (now : String) :
    FetchOutcome → Option StatsData × List FetchLog
  | .exn err => (none, [FetchLog.fetchError (extractErrorDetail err)])
  | .resp ok status json =>
      if !ok then (none, [FetchLog.httpError status])
      else
        let errLogs : List FetchLog :=
          match json.errors with
          | some es => [FetchLog.gqlErrors es]
          | none => []
        match json.data.bind GqlData.user with
        | none => (none, errLogs)
        | some user =>
            (some (buildStatsFromRaw (normalizeRaw user) now), errLogs)

/-- The flattened chronological day sequence of a raw payload's calendar
(the spec's "flattened day sequence"), used to state the burst-metric
policy. -/
def flatDays (raw : RawContributionData) : List ContributionDay :=
  raw.contributionCalendar.weeks.flatMap fun week => week.contributionDays

/-- The maximum single-day contribution count over the flattened day
sequence (0 for an empty calendar). -/
def maxDailyOf (raw : RawContributionData) : ℕ :=
  ((flatDays raw).map fun d => d.contributionCount).foldl max 0

/-- A sample raw payload used to instantiate universally quantified theorems
at a concrete input: two merged PRs and one unmerged, two repositories with
window commits and one without, one calendar week with a 30-commit day. -/
def sampleRaw : RawContributionData :=
  { login := "octocat"
    name := some "The Octocat"
    avatarUrl := "https://example.com/a.png"
    contributionCalendar :=
      { totalContributions := 47
        weeks :=
          [{ contributionDays :=
              [{ date := "2026-01-01", contributionCount := 30 },
               { date := "2026-01-02", contributionCount := 2 },
               { date := "2026-01-03", contributionCount := 0 }] }] }
    pullRequests :=
      { totalCount := 3
        nodes :=
          [{ additions := 100, deletions := 50, changedFiles := 3, merged := true },
           { additions := 7, deletions := 1, changedFiles := 1, merged := false },
           { additions := 0, deletions := 0, changedFiles := 0, merged := true }] }
    reviewsTotal := 4
    issuesTotal := 2
    repositories :=
      { totalCount := 3
        nodes :=
          [{ nameWithOwner := "octocat/a", defaultBranchRef := some 60 },
           { nameWithOwner := "octocat/b", defaultBranchRef := some 30 },
           { nameWithOwner := "octocat/c", defaultBranchRef := none }] }
    ownedRepoStars :=
      [{ stargazerCount := 5, forkCount := 1, watchersTotal := 2 }] }

/-- A sample raw payload with exactly one repository carrying window commits,
so that the concentration ratio is exactly 1. -/
def sampleRawOneRepo : RawContributionData :=
  { sampleRaw with
    repositories :=
      { totalCount := 2
        nodes :=
          [{ nameWithOwner := "octocat/a", defaultBranchRef := some 8 },
           { nameWithOwner := "octocat/c", defaultBranchRef := some 0 }] } }

/-- A sample outcome stream: two pending bodies, then a complete approval. -/
def pendingThenApproved : ℕ → PollOutcome := fun i =>
  if i < 2 then PollOutcome.json "pending" none none
  else PollOutcome.json "approved" (some "tok-1") (some "alice")

/-- A sample outcome stream that never reaches a terminal status. -/
def alwaysPending : ℕ → PollOutcome := fun _ =>
  PollOutcome.json "pending" none none

/-- A minimal GraphQL `user` object used to instantiate the fetch theorems. -/
def sampleGqlUser : GqlUser :=
  { login := "octocat"
    name := none
    avatarUrl := "https://example.com/a.png"
    contributionsCollection :=
      { contributionCalendar := { totalContributions := 0, weeks := [] }
        pullRequestContributions := { totalCount := 0, nodes := [] }
        reviewsTotal := 0
        issuesTotal := 0 }
    repositories := { totalCount := 0, nodes := [] }
    ownedRepos := none }

end Chapa

namespace Chapa

/-! ## List folding helpers -/

/-- Folding `(s, x) ↦ s + f x` from `a` computes `a` plus the sum of the
mapped list; this relates the `reduce` folds of the source to `List.sum`. -/
theorem foldl_add_eq {α : Type*} {M : Type*} [AddCommMonoid M] (f : α → M) :
    ∀ (l : List α) (a : M), l.foldl (fun s x => s + f x) a = a + (l.map f).sum
  | [], a => by simp
  | x :: t, a => by
      rw [List.foldl_cons, foldl_add_eq f t (a + f x), List.map_cons,
        List.sum_cons, add_assoc]

/-- Shifting the initial accumulator out of a `max` fold. -/
theorem foldl_max_shift : ∀ (l : List ℕ) (a : ℕ),
    l.foldl max a = max a (l.foldl max 0)
  | [], a => by simp
  | x :: t, a => by
      rw [List.foldl_cons, foldl_max_shift t (max a x), List.foldl_cons,
        foldl_max_shift t (max 0 x), Nat.zero_max, max_assoc]

/-- Cons step of the `max` fold. -/
theorem foldl_max_cons (x : ℕ) (l : List ℕ) :
    (x :: l).foldl max 0 = max x (l.foldl max 0) := by
  rw [List.foldl_cons, Nat.zero_max, foldl_max_shift]

/-- Every member is bounded by the `max` fold. -/
theorem le_foldl_max {x : ℕ} : ∀ {l : List ℕ}, x ∈ l → x ≤ l.foldl max 0 := by
  intro l hx
  induction l with
  | nil => cases hx
  | cons a t ih =>
      rw [foldl_max_cons]
      rcases List.mem_cons.1 hx with h | h
      · exact h ▸ le_max_left _ _
      · exact le_trans (ih h) (le_max_right _ _)

/-- The `max` fold of a list of naturals is bounded by its sum. -/
theorem foldl_max_le_sum : ∀ l : List ℕ, l.foldl max 0 ≤ l.sum
  | [] => le_refl 0
  | a :: t => by
      rw [foldl_max_cons, List.sum_cons]
      exact max_le (Nat.le_add_right a t.sum)
        (le_trans (foldl_max_le_sum t) (Nat.le_add_left _ _))

/-- The `max` fold is zero or a member of the list. -/
theorem foldl_max_mem_or_zero : ∀ l : List ℕ,
    l.foldl max 0 = 0 ∨ l.foldl max 0 ∈ l
  | [] => Or.inl rfl
  | a :: t => by
      rw [foldl_max_cons]
      rcases max_choice a (t.foldl max 0) with h | h
      · exact Or.inr (by rw [h]; exact List.mem_cons_self a t)
      · rw [h]
        rcases foldl_max_mem_or_zero t with h0 | hm
        · exact Or.inl h0
        · exact Or.inr (List.mem_cons_of_mem a hm)

/-- With at least two positive entries, the `max` fold is strictly below the
sum. -/
theorem foldl_max_lt_sum (a b : ℕ) (t : List ℕ) (ha : 0 < a) (hb : 0 < b) :
    (a :: b :: t).foldl max 0 < (a :: b :: t).sum := by
  rw [foldl_max_cons, foldl_max_cons, List.sum_cons, List.sum_cons]
  have ht := foldl_max_le_sum t
  refine max_lt (by omega) (max_lt (by omega) (by omega))

/-! ## Claim theorems for the stats aggregation engine -/

/-- C1: for every raw payload, `buildStatsFromRaw` returns a
`prsMergedWeight` equal to the sum of `computePrWeight` over exactly the PR
records with `merged = true`, capped at 120.0; in particular it is at most
120.0, and records with `merged = false` contribute nothing (they are
filtered out of the sum). -/
theorem buildStats_prsMergedWeight_cap (raw : RawContributionData)
    (now : String) :
    (buildStatsFromRaw raw now).prsMergedWeight =
      min (((raw.pullRequests.nodes.filter fun pr => pr.merged).map
        computePrWeight).sum) 120 ∧
    (buildStatsFromRaw raw now).prsMergedWeight ≤ 120 := by
  have h : (buildStatsFromRaw raw now).prsMergedWeight =
      min ((raw.pullRequests.nodes.filter fun pr => pr.merged).foldl
        (fun sum pr => sum + computePrWeight pr) 0) ((PR_WEIGHT_AGG_CAP : ℕ) : ℝ) :=
    rfl
  have hcap : ((PR_WEIGHT_AGG_CAP : ℕ) : ℝ) = 120 := by
    norm_num [PR_WEIGHT_AGG_CAP]
  rw [h, foldl_add_eq, zero_add, hcap]
  exact ⟨rfl, min_le_right _ _⟩

/-- C2: `computePrWeight` returns
`min(0.5 + 0.25*ln(1 + changedFiles) + 0.25*ln(1 + additions + deletions), 3.0)`;
in particular the all-zero PR weighs exactly 0.5 and every output is at
most 3.0. -/
theorem computePrWeight_spec (pr : PRNode) :
    computePrWeight pr =
      min (0.5 + 0.25 * Real.log (1 + (pr.changedFiles : ℝ))
             + 0.25 * Real.log (1 + (pr.additions : ℝ) + (pr.deletions : ℝ))) 3 ∧
    computePrWeight
      { additions := 0, deletions := 0, changedFiles := 0, merged := false } =
      0.5 ∧
    computePrWeight pr ≤ 3 := by
  refine ⟨rfl, ?_, min_le_right _ _⟩
  show min (0.5 + 0.25 * Real.log (1 + ((0 : ℕ) : ℝ))
        + 0.25 * Real.log (1 + ((0 : ℕ) : ℝ) + ((0 : ℕ) : ℝ))) 3 = 0.5
  norm_num [Real.log_one]

/-- C4: `buildStatsFromRaw` reports the maximum single-day contribution
count `m` of the flattened calendar as `maxCommitsIn10Min` when `m ≥ 30`
and reports 0 when `m < 30` (so exactly 30 at the boundary, and 0 for an
empty calendar); `maxDailyOf` really is the maximum: it bounds every
flattened day and is attained by one of them unless it is 0. -/
theorem buildStats_maxCommitsIn10Min_spec (raw : RawContributionData)
    (now : String) :
    (buildStatsFromRaw raw now).maxCommitsIn10Min =
      (if maxDailyOf raw ≥ 30 then maxDailyOf raw else 0) ∧
    (∀ d ∈ flatDays raw, d.contributionCount ≤ maxDailyOf raw) ∧
    (maxDailyOf raw = 0 ∨
      ∃ d ∈ flatDays raw, d.contributionCount = maxDailyOf raw) := by
  have hmap : ((raw.contributionCalendar.weeks.flatMap fun week =>
        week.contributionDays.map fun day =>
          ({ date := day.date, count := day.contributionCount } : HeatmapDay)).map
      fun d => d.count) = (flatDays raw).map fun d => d.contributionCount := by
    simp [flatDays, List.map_flatMap, List.map_map, Function.comp_def]
  refine ⟨?_, ?_, ?_⟩
  · have h : (buildStatsFromRaw raw now).maxCommitsIn10Min =
        (if max (((raw.contributionCalendar.weeks.flatMap fun week =>
              week.contributionDays.map fun day =>
                ({ date := day.date, count := day.contributionCount } :
                  HeatmapDay)).map fun d => d.count).foldl max 0) 0 ≥ 30 then
          max (((raw.contributionCalendar.weeks.flatMap fun week =>
              week.contributionDays.map fun day =>
                ({ date := day.date, count := day.contributionCount } :
                  HeatmapDay)).map fun d => d.count).foldl max 0) 0
        else 0) := rfl
    rw [h, hmap, Nat.max_zero]
    rfl
  · intro d hd
    exact le_foldl_max (List.mem_map_of_mem _ hd)
  · rcases foldl_max_mem_or_zero ((flatDays raw).map fun d => d.contributionCount)
      with h0 | hm
    · exact Or.inl h0
    · rcases List.mem_map.1 hm with ⟨d, hd, hdm⟩
      exact Or.inr ⟨d, hd, hdm⟩

/-- C3: the `topRepoShare` returned by `buildStatsFromRaw` lies in `[0, 1]`;
it is 0 exactly when no repository has a positive commit count in the
window, and 1 exactly when exactly one repository has a positive commit
count (a repository with an absent `defaultBranchRef` counts as zero
commits, via `getD 0`). -/
theorem buildStats_topRepoShare_spec (raw : RawContributionData)
    (now : String) :
    0 ≤ (buildStatsFromRaw raw now).topRepoShare ∧
    (buildStatsFromRaw raw now).topRepoShare ≤ 1 ∧
    ((buildStatsFromRaw raw now).topRepoShare = 0 ↔
      (raw.repositories.nodes.countP fun r =>
        decide (0 < r.defaultBranchRef.getD 0)) = 0) ∧
    ((buildStatsFromRaw raw now).topRepoShare = 1 ↔
      (raw.repositories.nodes.countP fun r =>
        decide (0 < r.defaultBranchRef.getD 0)) = 1) := by
  classical
  set L : List RepoCommit :=
    (raw.repositories.nodes.map fun r =>
      ({ name := r.nameWithOwner, commits := r.defaultBranchRef.getD 0 } :
        RepoCommit)).filter (fun r => decide (r.commits > 0)) with hLdef
  set l : List ℕ := L.map fun r => r.commits with hldef
  have hshare : (buildStatsFromRaw raw now).topRepoShare =
      if L.foldl (fun s r => s + r.commits) 0 > 0 then
        ((l.foldl max 0 : ℕ) : ℚ) / ((L.foldl (fun s r => s + r.commits) 0 : ℕ) : ℚ)
      else 0 := rfl
  have hsum : L.foldl (fun s r => s + r.commits) 0 = l.sum := by
    rw [foldl_add_eq, zero_add]
  have hpos : ∀ x ∈ l, 0 < x := by
    intro x hx
    rcases List.mem_map.1 hx with ⟨r, hr, hxr⟩
    have hfil := (List.mem_filter.1 hr).2
    rw [decide_eq_true_iff] at hfil
    omega
  have hcount : (raw.repositories.nodes.countP fun r =>
      decide (0 < r.defaultBranchRef.getD 0)) = l.length := by
    rw [hldef, List.length_map, hLdef, ← List.countP_eq_length_filter,
      List.countP_map]
    rfl
  rw [hshare, hsum, hcount]
  rcases eq_or_ne l [] with hnil | hne
  · rw [hnil]
    norm_num
  · rcases List.exists_cons_of_ne_nil hne with ⟨a, t, hat⟩
    have hapos : 0 < a := hpos a (by rw [hat]; exact List.mem_cons_self a t)
    have hT : 0 < l.sum := by
      rw [hat, List.sum_cons]; omega
    have hTQ : (0 : ℚ) < ((l.sum : ℕ) : ℚ) := by exact_mod_cast hT
    have hM_le : l.foldl max 0 ≤ l.sum := foldl_max_le_sum l
    have hM_pos : 0 < l.foldl max 0 :=
      lt_of_lt_of_le hapos (le_foldl_max (by rw [hat]; exact List.mem_cons_self a t))
    rw [if_pos hT]
    refine ⟨div_nonneg (Nat.cast_nonneg _) (Nat.cast_nonneg _),
      (div_le_one hTQ).2 (Nat.cast_le.2 hM_le), ?_, ?_⟩
    · constructor
      · intro hz
        rcases div_eq_zero_iff.1 hz with h0 | h0
        · exact absurd (Nat.cast_injective h0) (Nat.pos_iff_ne_zero.1 hM_pos)
        · exact absurd (Nat.cast_injective h0) (Nat.pos_iff_ne_zero.1 hT)
      · intro hlen
        exact absurd (List.length_eq_zero.1 hlen) hne
    · rw [div_eq_one_iff_eq (ne_of_gt hTQ), Nat.cast_inj]
      constructor
      · intro hMT
        rw [hat] at hMT ⊢
        cases t with
        | nil => rfl
        | cons b t2 =>
            have hbpos : 0 < b :=
              hpos b (by rw [hat]; exact List.mem_cons_of_mem a (List.mem_cons_self b t2))
            exact absurd hMT (ne_of_lt (foldl_max_lt_sum a b t2 hapos hbpos))
      · intro hlen
        rw [hat] at hlen ⊢
        have ht : t = [] := by
          rw [List.length_cons] at hlen
          exact List.length_eq_zero.1 (by omega)
        rw [ht]
        simp [foldl_max_cons]

/-! ## Poll-loop lemmas -/

/-- A non-empty string is truthy. -/
theorem optTruthy_some {s : String} (h : s ≠ "") :
    optTruthy (some s) = true := by
  show (!s.isEmpty) = true
  rw [Bool.not_eq_true', Bool.eq_false_iff]
  intro hc
  exact h ((String.isEmpty_iff s).1 hc)

/-- A JSON body that is neither a complete approval nor an expiry falls
through to the next iteration. -/
theorem pollStep_json_keep (s : String) (t h : Option String)
    (hns : ¬(s = "approved" ∧ optTruthy t = true ∧ optTruthy h = true))
    (hne : s ≠ "expired") :
    pollStep (PollOutcome.json s t h) = StepResult.keepPolling := by
  simp only [pollStep]
  rw [if_neg hns, if_neg hne]

/-- An approval body with non-empty token and handle succeeds. -/
theorem pollStep_approved (t h : String) (ht : t ≠ "") (hh : h ≠ "") :
    pollStep (PollOutcome.json "approved" (some t) (some h)) =
      StepResult.success t h := by
  simp [pollStep, optTruthy_some ht, optTruthy_some hh]

/-- Inversion: a successful step came from an approval body whose token and
handle are present and non-empty. -/
theorem pollStep_success_inv {o : PollOutcome} {t h : String}
    (hs : pollStep o = StepResult.success t h) :
    o = PollOutcome.json "approved" (some t) (some h) ∧ t ≠ "" ∧ h ≠ "" := by
  match o with
  | .exn e => exact absurd hs (by simp [pollStep])
  | .httpError st => exact absurd hs (by simp [pollStep])
  | .json s tok hd =>
      simp only [pollStep] at hs
      by_cases h1 : s = "approved" ∧ optTruthy tok = true ∧ optTruthy hd = true
      · rw [if_pos h1] at hs
        obtain ⟨hs1, htru, hhtru⟩ := h1
        subst hs1
        injection hs with het heh
        cases tok with
        | none => exact absurd htru (by decide)
        | some t0 =>
            cases hd with
            | none => exact absurd hhtru (by decide)
            | some h0 =>
                simp only [Option.getD_some] at het heh
                subst het
                subst heh
                refine ⟨rfl, ?_, ?_⟩
                · intro hc
                  rw [hc] at htru
                  exact absurd htru (by decide)
                · intro hc
                  rw [hc] at hhtru
                  exact absurd hhtru (by decide)
      · rw [if_neg h1] at hs
        by_cases h2 : s = "expired"
        · rw [if_pos h2] at hs
          exact absurd hs (by simp)
        · rw [if_neg h2] at hs
          exact absurd hs (by simp)

/-- Inversion: an expired step came from a body with status "expired". -/
theorem pollStep_expired_inv {o : PollOutcome}
    (hs : pollStep o = StepResult.expired) :
    ∃ t h, o = PollOutcome.json "expired" t h := by
  match o with
  | .exn e => exact absurd hs (by simp [pollStep])
  | .httpError st => exact absurd hs (by simp [pollStep])
  | .json s tok hd =>
      simp only [pollStep] at hs
      by_cases h1 : s = "approved" ∧ optTruthy tok = true ∧ optTruthy hd = true
      · rw [if_pos h1] at hs
        exact absurd hs (by simp)
      · rw [if_neg h1] at hs
        by_cases h2 : s = "expired"
        · exact ⟨tok, hd, by rw [h2]⟩
        · rw [if_neg h2] at hs
          exact absurd hs (by simp)

/-- Unfolding a successful iteration. -/
theorem loginFrom_step_success (b : String) (o : ℕ → PollOutcome) (i fuel : ℕ)
    (t h : String) (hstep : pollStep (o i) = StepResult.success t h) :
    loginFrom b o i (fuel + 1) =
      { result := .success t h, polls := 1
        saved := [{ token := t, handle := h, server := b }] } := by
  simp only [loginFrom]
  rw [hstep]

/-- Unfolding an expired iteration. -/
theorem loginFrom_step_expired (b : String) (o : ℕ → PollOutcome) (i fuel : ℕ)
    (hstep : pollStep (o i) = StepResult.expired) :
    loginFrom b o i (fuel + 1) = { result := .expired, polls := 1, saved := [] } := by
  simp only [loginFrom]
  rw [hstep]

/-- Unfolding a fall-through iteration. -/
theorem loginFrom_step_keep (b : String) (o : ℕ → PollOutcome) (i fuel : ℕ)
    (hstep : pollStep (o i) = StepResult.keepPolling) :
    loginFrom b o i (fuel + 1) =
      { result := (loginFrom b o (i + 1) fuel).result
        polls := (loginFrom b o (i + 1) fuel).polls + 1
        saved := (loginFrom b o (i + 1) fuel).saved } := by
  simp only [loginFrom]
  rw [hstep]

/-- A run whose first `fuel` outcomes all fall through times out after
exactly `fuel` polls with nothing saved. -/
theorem loginFrom_all_keep (b : String) (o : ℕ → PollOutcome) :
    ∀ (fuel i : ℕ), (∀ j < fuel, pollStep (o (i + j)) = StepResult.keepPolling) →
      loginFrom b o i fuel = { result := .timeout, polls := fuel, saved := [] }
  | 0, i, _ => rfl
  | fuel + 1, i, h => by
      have h0 : pollStep (o i) = StepResult.keepPolling := by
        simpa using h 0 (Nat.succ_pos _)
      rw [loginFrom_step_keep b o i fuel h0,
        loginFrom_all_keep b o fuel (i + 1) fun j hj => by
          have := h (j + 1) (by omega)
          simpa [Nat.add_assoc, Nat.add_comm 1 j] using this]

/-- Skipping `k` leading fall-through iterations. -/
theorem loginFrom_skip (b : String) (o : ℕ → PollOutcome) :
    ∀ (k i fuel : ℕ), k ≤ fuel →
      (∀ j < k, pollStep (o (i + j)) = StepResult.keepPolling) →
      loginFrom b o i fuel =
        { result := (loginFrom b o (i + k) (fuel - k)).result
          polls := (loginFrom b o (i + k) (fuel - k)).polls + k
          saved := (loginFrom b o (i + k) (fuel - k)).saved }
  | 0, i, fuel, _, _ => by simp
  | k + 1, i, fuel, hk, h => by
      obtain ⟨f, rfl⟩ : ∃ f, fuel = f + 1 := ⟨fuel - 1, by omega⟩
      have h0 : pollStep (o i) = StepResult.keepPolling := by
        simpa using h 0 (Nat.succ_pos _)
      rw [loginFrom_step_keep b o i f h0,
        loginFrom_skip b o k (i + 1) f (by omega) fun j hj => by
          have := h (j + 1) (by omega)
          simpa [Nat.add_assoc, Nat.add_comm 1 j] using this]
      have hidx : i + 1 + k = i + (k + 1) := by omega
      have hfu : f - k = f + 1 - (k + 1) := by omega
      rw [hidx, hfu]
      simp [Nat.add_assoc]

/-- A timed-out run used all its fuel. -/
theorem loginFrom_timeout_polls (b : String) (o : ℕ → PollOutcome) :
    ∀ (fuel i : ℕ), (loginFrom b o i fuel).result = LoginResult.timeout →
      (loginFrom b o i fuel).polls = fuel
  | 0, i, _ => rfl
  | fuel + 1, i, h => by
      match hstep : pollStep (o i) with
      | .success t hd =>
          rw [loginFrom_step_success b o i fuel t hd hstep] at h
          exact absurd h (by simp)
      | .expired =>
          rw [loginFrom_step_expired b o i fuel hstep] at h
          exact absurd h (by simp)
      | .keepPolling =>
          rw [loginFrom_step_keep b o i fuel hstep] at h ⊢
          simpa using loginFrom_timeout_polls b o fuel (i + 1) (by simpa using h)

/-- Saved-credential characterization of a partial run: at most one record
is ever saved; the saved list is the singleton approved credential exactly
when the run succeeds; and any saved record traces back to the approval
body of the last poll issued. -/
theorem loginFrom_saved_char (b : String) (o : ℕ → PollOutcome) :
    ∀ (fuel i : ℕ),
      ((loginFrom b o i fuel).saved.length ≤ 1) ∧
      (∀ t h, (loginFrom b o i fuel).result = LoginResult.success t h ↔
        (loginFrom b o i fuel).saved =
          [{ token := t, handle := h, server := b }]) ∧
      (∀ c ∈ (loginFrom b o i fuel).saved,
        ∃ j, j + 1 = i + (loginFrom b o i fuel).polls ∧
          o j = PollOutcome.json "approved" (some c.token) (some c.handle) ∧
          c.token ≠ "" ∧ c.handle ≠ "" ∧ c.server = b)
  | 0, i => by
      refine ⟨by simp [loginFrom], ?_, by simp [loginFrom]⟩
      intro t h
      simp [loginFrom]
  | fuel + 1, i => by
      match hstep : pollStep (o i) with
      | .success t0 h0 =>
          rw [loginFrom_step_success b o i fuel t0 h0 hstep]
          obtain ⟨ho, ht0, hh0⟩ := pollStep_success_inv hstep
          refine ⟨by simp, ?_, ?_⟩
          · intro t h
            simp [LoginResult.success.injEq, SavedConfig.mk.injEq]
          · intro c hc
            rw [List.mem_singleton] at hc
            subst hc
            exact ⟨i, by simp, ho, ht0, hh0, rfl⟩
      | .expired =>
          rw [loginFrom_step_expired b o i fuel hstep]
          exact ⟨by simp, by simp, by simp⟩
      | .keepPolling =>
          rw [loginFrom_step_keep b o i fuel hstep]
          obtain ⟨ih1, ih2, ih3⟩ := loginFrom_saved_char b o fuel (i + 1)
          refine ⟨ih1, fun t h => ih2 t h, ?_⟩
          intro c hc
          obtain ⟨j, hj, rest⟩ := ih3 c hc
          refine ⟨j, ?_, rest⟩
          show j + 1 = i + ((loginFrom b o (i + 1) fuel).polls + 1)
          omega

/-! ## Claim theorems for the polling state machine -/

/-- C5: if the endpoint answers the first `N` polls with pending bodies and
the next one with a complete approval (non-empty token and handle), and
`N < 150`, then `login` issues exactly `N + 1` poll requests, saves exactly
that credential once, and returns successfully. -/
theorem login_pending_then_approved (b tok hdl : String) (N : ℕ)
    (outcomes : ℕ → PollOutcome)
    (hN : N < MAX_POLL_ATTEMPTS)
    (hpend : ∀ i < N, outcomes i = PollOutcome.json "pending" none none)
    (happ : outcomes N = PollOutcome.json "approved" (some tok) (some hdl))
    (htok : tok ≠ "") (hhdl : hdl ≠ "") :
    login b outcomes =
      { result := .success tok hdl, polls := N + 1
        saved := [{ token := tok, handle := hdl, server := b }] } := by
  have hkeep : ∀ j < N, pollStep (outcomes (0 + j)) = StepResult.keepPolling := by
    intro j hj
    rw [Nat.zero_add, hpend j hj]
    exact pollStep_json_keep _ _ _ (by decide) (by decide)
  rw [login, loginFrom_skip b outcomes N 0 MAX_POLL_ATTEMPTS (le_of_lt hN) hkeep]
  obtain ⟨f, hf⟩ : ∃ f, MAX_POLL_ATTEMPTS - N = f + 1 :=
    ⟨MAX_POLL_ATTEMPTS - N - 1, by omega⟩
  rw [Nat.zero_add, hf,
    loginFrom_step_success b outcomes N f tok hdl
      (by rw [happ]; exact pollStep_approved tok hdl htok hhdl)]
  simp [Nat.add_comm]

/-- C6: if no poll response within the attempt ceiling is a complete
approval or an expiry, `login` performs exactly 150 poll attempts, saves
nothing, and reports a fatal timeout. -/
theorem login_timeout_after_ceiling (b : String) (outcomes : ℕ → PollOutcome)
    (h : ∀ i < MAX_POLL_ATTEMPTS, ∀ s t hd,
      outcomes i = PollOutcome.json s t hd →
        ¬(s = "approved" ∧ optTruthy t = true ∧ optTruthy hd = true) ∧
          s ≠ "expired") :
    login b outcomes =
      { result := .timeout, polls := MAX_POLL_ATTEMPTS, saved := [] } := by
  rw [login]
  apply loginFrom_all_keep
  intro j hj
  rw [Nat.zero_add]
  cases hout : outcomes j with
  | exn e => rfl
  | httpError st => rfl
  | json s t hd =>
      obtain ⟨h1, h2⟩ := h j hj s t hd hout
      exact pollStep_json_keep s t hd h1 h2

/-- C7: a transport exception, a non-2xx status, or a malformed body
(including "approved" without both fields) always falls through to the
next attempt; a step leaves the polling state only for a complete approval
or an expiry, and apart from those only fuel exhaustion (the attempt
ceiling) ends the run, in which case all 150 attempts were used. -/
theorem pollStep_transitions :
    (∀ e, pollStep (PollOutcome.exn e) = StepResult.keepPolling) ∧
    (∀ st, pollStep (PollOutcome.httpError st) = StepResult.keepPolling) ∧
    (∀ s t h, ¬(s = "approved" ∧ optTruthy t = true ∧ optTruthy h = true) →
      s ≠ "expired" →
      pollStep (PollOutcome.json s t h) = StepResult.keepPolling) ∧
    (∀ o, pollStep o ≠ StepResult.keepPolling →
      ((∃ t h, pollStep o = StepResult.success t h ∧
          o = PollOutcome.json "approved" (some t) (some h) ∧
          t ≠ "" ∧ h ≠ "") ∨
        (pollStep o = StepResult.expired ∧
          ∃ t h, o = PollOutcome.json "expired" t h))) ∧
    (∀ b o i, loginFrom b o i 0 =
      { result := LoginResult.timeout, polls := 0, saved := [] }) ∧
    (∀ b o, (login b o).result = LoginResult.timeout →
      (login b o).polls = MAX_POLL_ATTEMPTS) := by
  refine ⟨fun e => rfl, fun st => rfl, pollStep_json_keep, ?_, fun b o i => rfl,
    fun b o => loginFrom_timeout_polls b o MAX_POLL_ATTEMPTS 0⟩
  intro o hne
  cases hstep : pollStep o with
  | keepPolling => exact absurd hstep hne
  | success t h =>
      obtain ⟨ho, ht, hh⟩ := pollStep_success_inv hstep
      exact Or.inl ⟨t, h, rfl, ho, ht, hh⟩
  | expired => exact Or.inr ⟨rfl, pollStep_expired_inv hstep⟩

/-- C10: during any `login` run the credential store is written at most
once; it is written exactly when the run returns successfully (with the
approved token and handle, and the normalized base URL as server); and any
saved record comes from the approval body of the final poll, with both
fields present and non-empty. On every other path nothing is saved. -/
theorem login_saveConfig_spec (b : String) (outcomes : ℕ → PollOutcome) :
    (login b outcomes).saved.length ≤ 1 ∧
    (∀ t h, (login b outcomes).result = LoginResult.success t h ↔
      (login b outcomes).saved = [{ token := t, handle := h, server := b }]) ∧
    (∀ c ∈ (login b outcomes).saved,
      ∃ i, i + 1 = (login b outcomes).polls ∧
        outcomes i = PollOutcome.json "approved" (some c.token) (some c.handle) ∧
        c.token ≠ "" ∧ c.handle ≠ "" ∧ c.server = b) := by
  obtain ⟨h1, h2, h3⟩ := loginFrom_saved_char b outcomes MAX_POLL_ATTEMPTS 0
  refine ⟨h1, h2, ?_⟩
  intro c hc
  obtain ⟨i, hi, rest⟩ := h3 c hc
  refine ⟨i, ?_, rest⟩
  show i + 1 = (loginFrom b outcomes 0 MAX_POLL_ATTEMPTS).polls
  omega

/-- C8 (amended): the catch branch of the poll loop surfaces the TLS hint
exactly when the collected cause chain (messages and codes) matches a TLS
pattern and the insecure option was not enabled; the generic network line
is surfaced exactly when verbose diagnostics were requested (so by default
a non-TLS transport error produces no diagnostic); in all cases the loop
continues polling. -/
theorem exnDiagnostics_spec (verbose insecure : Bool) (i : ℕ)
    (err : List ErrEntry) :
    ((Diag.tlsHint (getRootErrorMessage err)) ∈
        exnDiagnostics verbose insecure i err ↔
      (insecure = false ∧ isTlsError (getFullErrorChain err) = true)) ∧
    ((Diag.genericNetwork (i + 1) (getRootErrorMessage err)) ∈
        exnDiagnostics verbose insecure i err ↔ verbose = true) ∧
    pollStep (PollOutcome.exn err) = StepResult.keepPolling := by
  refine ⟨?_, ?_, rfl⟩ <;>
    cases verbose <;> cases insecure <;>
      cases htls : isTlsError (getFullErrorChain err) <;>
        simp [exnDiagnostics, htls]

/-- C8 counterexample: a plain connection-refused exception with neither
verbose nor insecure set matches no TLS pattern and produces no diagnostic
at all, in particular no generic network-failure diagnostic. -/
theorem exnDiagnostics_counterexample :
    isTlsError (getFullErrorChain
      [{ message := "fetch failed", code := none },
       { message := "ECONNREFUSED", code := some "ECONNREFUSED" }]) = false ∧
    exnDiagnostics false false 0
      [{ message := "fetch failed", code := none },
       { message := "ECONNREFUSED", code := some "ECONNREFUSED" }] = [] := by
  decide

/-- C9 (amended): `fetchEmuStats` returns the explicit no-data result on a
thrown transport error, and on a response exactly when the response is
non-2xx or carries no `data.user`; when user data is present on a 2xx
response the aggregator is invoked on the normalized payload even if
GraphQL errors accompany it (they are only logged). -/
theorem fetchEmuStats_spec (now : String) (e : List ErrEntry) (ok : Bool)
    (st : ℕ) (j : GraphQLResponse) :
    (fetchEmuStats now (FetchOutcome.exn e)).1 = none ∧
    ((fetchEmuStats now (FetchOutcome.resp ok st j)).1 = none ↔
      (ok = false ∨ j.data.bind GqlData.user = none)) ∧
    (∀ u, j.data.bind GqlData.user = some u → ok = true →
      (fetchEmuStats now (FetchOutcome.resp ok st j)).1 =
        some (buildStatsFromRaw (normalizeRaw u) now)) := by
  refine ⟨rfl, ?_, ?_⟩
  · cases ok with
    | false => simp [fetchEmuStats]
    | true =>
        cases hu : j.data.bind GqlData.user with
        | none => simp [fetchEmuStats, hu]
        | some u => simp [fetchEmuStats, hu]
  · intro u hu hok
    subst hok
    simp [fetchEmuStats, hu]

/-- C9 counterexample: a 2xx response carrying both GraphQL errors and user
data does not return the no-data result — the aggregator still runs. -/
theorem fetchEmuStats_errors_counterexample :
    (fetchEmuStats "2026-02-16T00:00:00.000Z"
        (FetchOutcome.resp true 200
          { data := some { user := some sampleGqlUser },
            errors := some ["RATE_LIMITED"] })).1 ≠ none := by
  simp [fetchEmuStats]

/-! ## Witness instantiations at concrete inputs -/

/-- Witness for C1 at the sample payload. -/
theorem buildStats_prsMergedWeight_cap_witness :
    (buildStatsFromRaw sampleRaw "2026-02-16T00:00:00.000Z").prsMergedWeight ≤
      120 :=
  (buildStats_prsMergedWeight_cap sampleRaw "2026-02-16T00:00:00.000Z").2

/-- Witness for C2: the all-zero PR weighs exactly 0.5. -/
theorem computePrWeight_spec_witness :
    computePrWeight
      { additions := 0, deletions := 0, changedFiles := 0, merged := false } =
      0.5 :=
  (computePrWeight_spec
    { additions := 100, deletions := 50, changedFiles := 3,
      merged := true }).2.1

/-- Witness for C3: with exactly one repository carrying window commits the
share is exactly 1. -/
theorem buildStats_topRepoShare_spec_witness :
    (buildStatsFromRaw sampleRawOneRepo "2026-02-16T00:00:00.000Z").topRepoShare =
      1 :=
  ((buildStats_topRepoShare_spec sampleRawOneRepo
    "2026-02-16T00:00:00.000Z").2.2.2).2 (by decide)

/-- Witness for C4: the sample payload's 30-commit day is reported as-is at
the boundary. -/
theorem buildStats_maxCommitsIn10Min_spec_witness :
    (buildStatsFromRaw sampleRaw "2026-02-16T00:00:00.000Z").maxCommitsIn10Min =
      30 := by
  have h := (buildStats_maxCommitsIn10Min_spec sampleRaw
    "2026-02-16T00:00:00.000Z").1
  rw [h]
  decide

/-- Witness for C5: two pending responses followed by an approval give
exactly three polls and one saved credential. -/
theorem login_pending_then_approved_witness :
    login "https://chapa.example.com" pendingThenApproved =
      { result := .success "tok-1" "alice", polls := 3
        saved := [{ token := "tok-1", handle := "alice",
                    server := "https://chapa.example.com" }] } :=
  login_pending_then_approved "https://chapa.example.com" "tok-1" "alice" 2
    pendingThenApproved (by decide)
    (fun i hi => by simp [pendingThenApproved, hi])
    (by simp [pendingThenApproved])
    (by decide) (by decide)

/-- Witness for C6: 150 pending responses time out with nothing saved. -/
theorem login_timeout_after_ceiling_witness :
    login "https://chapa.example.com" alwaysPending =
      { result := LoginResult.timeout, polls := 150, saved := [] } :=
  login_timeout_after_ceiling "https://chapa.example.com" alwaysPending
    (fun i _ s t hd heq => by
      injection heq with h1 h2 h3
      subst h1
      subst h2
      subst h3
      exact ⟨by decide, by decide⟩)

/-- Witness for C7: an approval body missing both fields keeps polling. -/
theorem pollStep_transitions_witness :
    pollStep (PollOutcome.json "approved" none none) =
      StepResult.keepPolling :=
  pollStep_transitions.2.2.1 "approved" none none (by decide) (by decide)

/-- Witness for C8 at a verbose TLS failure: both diagnostics surface. -/
theorem exnDiagnostics_spec_witness :
    (Diag.tlsHint (getRootErrorMessage
        [{ message := "fetch failed", code := none },
         { message := "unable to verify the first certificate",
           code := some "UNABLE_TO_VERIFY_LEAF_SIGNATURE" }]) ∈
      exnDiagnostics true false 0
        [{ message := "fetch failed", code := none },
         { message := "unable to verify the first certificate",
           code := some "UNABLE_TO_VERIFY_LEAF_SIGNATURE" }]) :=
  (exnDiagnostics_spec true false 0
    [{ message := "fetch failed", code := none },
     { message := "unable to verify the first certificate",
       code := some "UNABLE_TO_VERIFY_LEAF_SIGNATURE" }]).1.2
    ⟨rfl, by decide⟩

/-- Witness for C9: with user data present and no errors the fetch returns
the aggregated stats. -/
theorem fetchEmuStats_spec_witness :
    (fetchEmuStats "2026-02-16T00:00:00.000Z"
        (FetchOutcome.resp true 200
          { data := some { user := some sampleGqlUser }, errors := none })).1 =
      some (buildStatsFromRaw (normalizeRaw sampleGqlUser)
        "2026-02-16T00:00:00.000Z") :=
  (fetchEmuStats_spec "2026-02-16T00:00:00.000Z" [] true 200
    { data := some { user := some sampleGqlUser }, errors := none }).2.2
    sampleGqlUser rfl rfl

/-- Witness for C10 on the always-pending stream: at most one save. -/
theorem login_saveConfig_spec_witness :
    (login "https://chapa.example.com" alwaysPending).saved.length ≤ 1 :=
  (login_saveConfig_spec "https://chapa.example.com" alwaysPending).1

end Chapa
